import Mathlib

/-!
Verification of the chat widget in `src/frontend` (chat-ui.tsx, markdown.tsx).

The embedding models the JavaScript runtime values the component manipulates
(`JsValue`, which includes `undefined`, parsed-JSON values and `Date` objects),
the browser `localStorage` entry (`Stored`), and the operations of the component
(`sendMessage`, `clearHistory`, `loadMessagesFromStorage`,
`saveMessagesToStorage`) translated line by line from the source.

Platform APIs outside the repository (JSON.stringify/parse, Date) are modelled
by their contracts: `JsValue.datestr t` stands for the ISO-8601 string that
`Date.prototype.toISOString` produces for the date whose millisecond value is
`t`; the platform guarantees `new Date` on that string recovers `t` exactly
(ISO strings carry millisecond precision, the full precision of a JS date).
Exceptions are modelled with `Except Unit`; a JS `try`/`catch` becomes a
`match` on the `Except` value.
-/

namespace RagChat

/-- A JavaScript runtime value, as far as the chat component can observe it:
JSON-representable data plus `undefined` and `Date` objects. `datestr t` is
the ISO-8601 serialization of the date with millisecond value `t`;
`dateInvalid` is an Invalid Date. Object fields are kept in insertion order
with unique keys (JS objects cannot hold duplicate keys). -/
inductive JsValue where
  | undefined : JsValue
  | null : JsValue
  | bool (b : Bool) : JsValue
  | num (n : Int) : JsValue
  | str (s : String) : JsValue
  | datestr (t : Int) : JsValue
  | date (t : Int) : JsValue
  | dateInvalid : JsValue
  | arr (xs : List JsValue) : JsValue
  | obj (fields : List (String × JsValue)) : JsValue
deriving Repr

/-- First binding of a key in the field list of a JS object; a missing key reads as
`undefined`, as in JavaScript. -/
def lookupField (fields : List (String × JsValue)) (k : String) : JsValue :=
  match fields with
  | [] => .undefined
  | (k2, v) :: rest => if k2 = k then v else lookupField rest k

/-- JavaScript property access `v[k]`: throws a TypeError on `null` and
`undefined`; reads the field of an object; yields `undefined` on every other
value (primitives and dates have no `answer`/`source`/`timestamp`-like own
properties). -/
def JsValue.getProp : JsValue → String → Except Unit JsValue
  | .undefined, _ => .error ()
  | .null, _ => .error ()
  | .obj fields, k => .ok (lookupField fields k)
  | _, _ => .ok .undefined

/-- Whether a value is an array (JS `Array.isArray`, and the only values with
a callable `.map`). -/
def JsValue.isArr : JsValue → Bool
  | .arr _ => true
  | _ => false

mutual

/-- Image of a value under `JSON.stringify`, read back as a value: dates
serialize through `toISOString` (for an Invalid Date, `toJSON` yields `null`),
`undefined` in array position becomes `null`, and object fields bound to
`undefined` are dropped. -/
def stringifyVal : JsValue → JsValue
  | .undefined => .null
  | .null => .null
  | .bool b => .bool b
  | .num n => .num n
  | .str s => .str s
  | .datestr t => .datestr t
  | .date t => .datestr t
  | .dateInvalid => .null
  | .arr xs => .arr (stringifyList xs)
  | .obj fs => .obj (stringifyFields fs)

/-- Image of `JSON.stringify` on the elements of an array. -/
def stringifyList : List JsValue → List JsValue
  | [] => []
  | x :: rest => stringifyVal x :: stringifyList rest

/-- Image of `JSON.stringify` on the fields of an object: `undefined`-valued keys are
dropped. -/
def stringifyFields : List (String × JsValue) → List (String × JsValue)
  | [] => []
  | (_, .undefined) :: rest => stringifyFields rest
  | (k, v) :: rest => (k, stringifyVal v) :: stringifyFields rest

end

mutual

/-- Whether a value is in the image of `JSON.parse`: no `undefined`, no `Date`
objects anywhere (`datestr` is just a string, so it qualifies). -/
def pureJson : JsValue → Bool
  | .undefined => false
  | .null => true
  | .bool _ => true
  | .num _ => true
  | .str _ => true
  | .datestr _ => true
  | .date _ => false
  | .dateInvalid => false
  | .arr xs => pureJsonList xs
  | .obj fs => pureJsonFields fs

/-- Predicate `pureJson` on the elements of an array. -/
def pureJsonList : List JsValue → Bool
  | [] => true
  | x :: rest => pureJson x && pureJsonList rest

/-- Predicate `pureJson` on the fields of an object. -/
def pureJsonFields : List (String × JsValue) → Bool
  | [] => true
  | (_, v) :: rest => pureJson v && pureJsonFields rest

end

/-- JavaScript `String.prototype.trim`: strip leading and trailing whitespace
(modelled on `Char.isWhitespace`). -/
def jsTrim (s : String) : String :=
  ((s.data.dropWhile Char.isWhitespace).reverse.dropWhile Char.isWhitespace).reverse.asString

/-- JavaScript `String.prototype.startsWith`. -/
def jsStartsWith (s p : String) : Bool :=
  p.data.isPrefixOf s.data

/-- A value the component can put in a message field and round-trip through
storage: either `undefined` (key absent / missing response field) or a value in
the image of `JSON.parse`. Every message the component constructs has storable
`content` and `source`: literals are strings, and `data.answer` / `data.source`
read from a parsed JSON body are `undefined` or parsed-JSON values. -/
def storable (v : JsValue) : Bool :=
  match v with
  | .undefined => true
  | _ => pureJson v

/-- The `role` field of a `Message` in chat-ui.tsx: `"user" | "bot"`. -/
inductive Role where
  | user : Role
  | bot : Role
deriving DecidableEq, Repr

/-- The string the role literal denotes in the source. -/
def roleStr : Role → String
  | .user => "user"
  | .bot => "bot"

/-- The `Message` interface of chat-ui.tsx. `content` and `source` are kept as
runtime values (`JsValue`) because the code assigns `data.answer` and
`data.source` from an unvalidated response body, which at runtime can be any
value including `undefined`; `source` being `undefined` models the absent
optional field. `timestamp` is the millisecond value of the `Date`. -/
structure Message where
  id : String
  role : Role
  content : JsValue
  source : JsValue
  timestamp : Int
deriving Repr

/-- The `localStorage` entry under the fixed key `"threecoders-chat-history"`:
absent (`getItem` returns `null`), the empty string (falsy, like absent), a
string `JSON.parse` rejects, or a string parsing to the JSON value `v`. -/
inductive Stored where
  | missing : Stored
  | empty : Stored
  | notJson : Stored
  | json (v : JsValue) : Stored
deriving Repr

/-- The JS object a `Message` denotes in memory. The source constructs user
and error messages without a `source` key and bot messages with one; a key
bound to `undefined` and an absent key are indistinguishable to property
access and to `JSON.stringify`, so both shapes are represented with a
`source` field that may be `undefined`. -/
def Message.toJs (m : Message) : JsValue :=
  .obj [("id", .str m.id), ("role", .str (roleStr m.role)), ("content", m.content),
        ("source", m.source), ("timestamp", .date m.timestamp)]

/-- Function `saveMessagesToStorage` (chat-ui.tsx line 49): `localStorage.setItem(KEY,
JSON.stringify(messages))`, modelled on the success path as the storage entry
whose parse is the stringify-image of the message array. -/
def saveMessagesToStorage (messages : List Message) : Stored :=
  .json (stringifyVal (.arr (messages.map Message.toJs)))

/-- JavaScript spread of a value `v` into an object literal: own enumerable properties of `v` — the fields of an
object, index-keyed elements of an array, index-keyed characters of a string,
nothing for primitives and dates. -/
def jsSpreadFields : JsValue → List (String × JsValue)
  | .obj fields => fields
  | .arr xs => xs.enum.map (fun p => (toString p.1, p.2))
  | .str s => s.data.enum.map (fun p => (toString p.1, JsValue.str (String.mk [p.2])))
  | _ => []

/-- Write a field of a JS object: replace the value in place when the key
exists, append the binding otherwise. -/
def setField (fields : List (String × JsValue)) (k : String) (v : JsValue) :
    List (String × JsValue) :=
  match fields with
  | [] => [(k, v)]
  | (k2, w) :: rest => if k2 = k then (k2, v) :: rest else (k2, w) :: setField rest k v

/-- Semantics of `new Date(x)` for the argument shapes the component can produce: an ISO
date string recovers its millisecond value (the platform contract for
`toISOString` output), a number is taken as milliseconds, `null` coerces to 0,
booleans to 0/1, a `Date` is copied; other arguments (including `undefined`
and the non-date strings of the model) give an Invalid Date. -/
def jsNewDate : JsValue → JsValue
  | .datestr t => .date t
  | .num n => .date n
  | .null => .date 0
  | .bool b => .date (if b then 1 else 0)
  | .date t => .date t
  | _ => .dateInvalid

/-- The arrow body from the `map` in `loadMessagesFromStorage` — spread `msg`
and override `timestamp` with `new Date(msg.timestamp)`: throws iff `msg` is `null` or `undefined`
(property access on it throws; spreading it does not). -/
def reconstructMsg (msg : JsValue) : Except Unit JsValue := do
  let ts ← msg.getProp "timestamp"
  pure (.obj (setField (jsSpreadFields msg) "timestamp" (jsNewDate ts)))

/-- JavaScript `Array.prototype.map` with a callback that can throw: the
first throw aborts the whole map. -/
def mapExcept (f : JsValue → Except Unit JsValue) :
    List JsValue → Except Unit (List JsValue)
  | [] => .ok []
  | x :: rest => do
    let y ← f x
    let ys ← mapExcept f rest
    pure (y :: ys)

/-- The call `parsed.map(...)` from `loadMessagesFromStorage`: `.map` is only a
function on arrays, so calling it on any other parsed value throws a
TypeError; on an array it maps `reconstructMsg`, propagating any throw. -/
def jsMapReconstruct : JsValue → Except Unit (List JsValue)
  | .arr xs => mapExcept reconstructMsg xs
  | _ => .error ()

/-- Function `loadMessagesFromStorage` (chat-ui.tsx line 33): missing or empty storage
returns `[]`; the `try`/`catch` turns a parse failure or any throw inside the
`map` into `[]`. The result is the list of loaded message objects. -/
def loadMessagesFromStorage : Stored → List JsValue
  | .missing => []
  | .empty => []
  | .notJson => []
  | .json v =>
    match jsMapReconstruct v with
    | .error _ => []
    | .ok msgs => msgs

/-- The component state of `ChatUI` relevant to the session: the `messages`
and `isLoading` React states, the `input` field state, and the durable
storage entry. (`isHydrated` is taken as true: all operations below happen
after the mount effect has run.) -/
structure ChatState where
  messages : List Message
  input : String
  isLoading : Bool
  storage : Stored
deriving Repr

/-- The save effect (chat-ui.tsx line 152): after a `messages` update, the
full list is re-serialized to storage — but only when non-empty. -/
def syncStorage (st : ChatState) : ChatState :=
  if st.messages.isEmpty then st
  else { st with storage := saveMessagesToStorage st.messages }

/-- Function `clearHistory` (chat-ui.tsx line 170): `setMessages([])` and
`localStorage.removeItem(STORAGE_KEY)`; the save effect does not fire on an
empty list, so the entry stays removed. -/
def clearHistory (st : ChatState) : ChatState :=
  { st with messages := [], storage := Stored.missing }

/-- The outcome of `await response.json()`: the body either fails to parse as
JSON or parses to a value (which, coming from `JSON.parse`, contains no
`undefined` or dates — but the model does not need to assume that). -/
inductive BodyResult where
  | notJson : BodyResult
  | json (v : JsValue) : BodyResult

/-- The outcome of the `fetch` call: rejection (network error) or a response
with an `ok` flag (`response.ok`, i.e. HTTP 2xx) and a body. -/
inductive FetchOutcome where
  | networkError : FetchOutcome
  | response (ok : Bool) (body : BodyResult) : FetchOutcome

/-- The `try` block of `sendMessage` after the user message is appended:
throws (`Except.error`) on network error, on `!response.ok`, on a non-JSON
body, and on `data.answer`/`data.source` access when `data` is `null`;
otherwise yields the pair (`data.answer`, `data.source`). -/
def respond (o : FetchOutcome) : Except Unit (JsValue × JsValue) :=
  match o with
  | .networkError => .error ()
  | .response ok body =>
    if !ok then .error ()
    else
      match body with
      | .notJson => .error ()
      | .json data => do
        let a ← data.getProp "answer"
        let s ← data.getProp "source"
        pure (a, s)

/-- The fixed apology string of the `catch` branch (chat-ui.tsx line 216). -/
def apologyText : String := "Sorry, I encountered an error. Please try again."

/-- The state after `sendMessage` settles, together with the body of the
request that was issued (`none` when the guard returned without fetching). -/
structure SendResult where
  state : ChatState
  request : Option String

/-- Function `sendMessage` (chat-ui.tsx line 176), taken from call to settlement. The
fetch outcome `o` and the effect results — generated ids `uid`, `bid` and
creation times `t1`, `t2` of the two `new Date()` calls — are parameters.
Guard: `if (!userMessage.trim() || isLoading) return`. Then the user message
with the trimmed text is appended (save effect fires), the input is cleared
and `isLoading` set; the `try` appends the bot message built from
`data.answer`/`data.source`, the `catch` appends the apology message (no
`source`); `finally` resets `isLoading`. -/
def sendMessage (st : ChatState) (userMessage : String) (o : FetchOutcome)
    (uid bid : String) (t1 t2 : Int) : SendResult :=
  if (jsTrim userMessage).isEmpty || st.isLoading then ⟨st, none⟩
  else
    let userMsg : Message := ⟨uid, .user, .str (jsTrim userMessage), .undefined, t1⟩
    let st1 := syncStorage { st with messages := st.messages ++ [userMsg] }
    let st1 := { st1 with input := "", isLoading := true }
    let st2 :=
      match respond o with
      | .ok (a, s) =>
        let botMsg : Message := ⟨bid, .bot, a, s, t2⟩
        syncStorage { st1 with messages := st1.messages ++ [botMsg] }
      | .error _ =>
        let errorMsg : Message := ⟨bid, .bot, .str apologyText, .undefined, t2⟩
        syncStorage { st1 with messages := st1.messages ++ [errorMsg] }
    ⟨{ st2 with isLoading := false }, some (jsTrim userMessage)⟩

/-- The canned suggestion texts rendered on the empty-session screen
(chat-ui.tsx line 252). -/
def suggestions : List String :=
  ["How can you help me?", "What sources do you use?", "Tell me about ThreeCoders"]

/-- The condition under which the suggestion block is rendered (chat-ui.tsx
line 241): `messages.length === 0 && !isLoading`. -/
def showSuggestions (st : ChatState) : Bool :=
  st.messages.isEmpty && !st.isLoading

/-- The `children` prop of the markdown `code` renderer, as the strings React
passes: either a single string or an array of strings. -/
inductive ReactChildren where
  | single (s : String) : ReactChildren
  | many (xs : List String) : ReactChildren

/-- Value `childString` in `CopyableCodeBlock` (markdown.tsx line 63):
`String(Array.isArray(children) ? children.join("") : children).trim()`. -/
def childStringOf : ReactChildren → String
  | .single s => jsTrim s
  | .many xs => jsTrim (String.join xs)

/-- Flag `shouldShowCopyButton` (markdown.tsx line 67): `childString.length > 50`. -/
def shouldShowCopyButton (c : ReactChildren) : Bool :=
  (childStringOf c).length > 50

/-- Flag `isCodeBlock` in the `code` renderer (markdown.tsx line 20):
`className?.startsWith("language-")` — `undefined` (no class) is falsy. -/
def isCodeBlock (className : Option String) : Bool :=
  match className with
  | none => false
  | some c => jsStartsWith c "language-"

/-- Whether the render pipeline shows a copy control for a `code` element:
fenced blocks go through `CopyableCodeBlock`, which gates the button on
`shouldShowCopyButton`; inline code never shows one. -/
def rendersCopyControl (className : Option String) (c : ReactChildren) : Bool :=
  isCodeBlock className && shouldShowCopyButton c

/-- Whether a value is `undefined`. -/
def JsValue.isUndef : JsValue → Bool
  | .undefined => true
  | _ => false

/-- The message the `try`/`catch` of `sendMessage` appends as its second
message, as a function of the fetch outcome: the bot message carrying
`data.answer`/`data.source` when nothing threw, the apology message otherwise. -/
def botOf (o : FetchOutcome) (bid : String) (t2 : Int) : Message :=
  match respond o with
  | .ok (a, s) => ⟨bid, .bot, a, s, t2⟩
  | .error _ => ⟨bid, .bot, .str apologyText, .undefined, t2⟩

/-- Whether the fetch outcome lands in the `catch` branch of `sendMessage`:
network error, non-2xx status, a body `JSON.parse` rejects, or a parsed body
on which `data.answer` throws (`null`). -/
def outcomeFails (o : FetchOutcome) : Bool :=
  match o with
  | .networkError => true
  | .response ok body =>
    !ok ||
      (match body with
       | .notJson => true
       | .json v =>
         match v.getProp "answer" with
         | .error _ => true
         | .ok _ => false)

/-- The fields of the object `loadMessagesFromStorage` rebuilds from a stored
message: `content`/`source` keys are present iff the in-memory value was not
`undefined` (`JSON.stringify` drops `undefined`-valued keys), and the
timestamp is a `Date` carrying the original millisecond value again. -/
def loadedFields (m : Message) : List (String × JsValue) :=
  [("id", JsValue.str m.id), ("role", JsValue.str (roleStr m.role))]
    ++ (if m.content.isUndef then [] else [("content", m.content)])
    ++ (if m.source.isUndef then [] else [("source", m.source)])
    ++ [("timestamp", JsValue.date m.timestamp)]

/-- Field-access equality between a loaded message object and an in-memory
message: id, role, content and source agree, and the timestamp is a date
value with the original millisecond value (what "round-tripped through the
ISO serialization and reconstructed as a date" comes to at full millisecond
precision). -/
def MatchesMsg (lm : JsValue) (m : Message) : Prop :=
  lm.getProp "id" = .ok (.str m.id)
  ∧ lm.getProp "role" = .ok (.str (roleStr m.role))
  ∧ lm.getProp "content" = .ok m.content
  ∧ lm.getProp "source" = .ok m.source
  ∧ lm.getProp "timestamp" = .ok (.date m.timestamp)

/- ============ General lemmas about the model ============ -/

theorem isEmpty_append_singleton {α : Type} (xs : List α) (m : α) :
    (xs ++ [m]).isEmpty = false := by
  cases xs <;> rfl

theorem outcomeFails_respond {o : FetchOutcome} (h : outcomeFails o = true) :
    respond o = .error () := by
  cases o with
  | networkError => rfl
  | response ok body =>
    cases ok with
    | false => rfl
    | true =>
      cases body with
      | notJson => rfl
      | json v =>
        cases hv : v.getProp "answer" with
        | error e => simp [respond, hv]; rfl
        | ok a => simp [outcomeFails, hv] at h

theorem respond_of_not_fails {o : FetchOutcome} (h : outcomeFails o = false) :
    ∃ a s, respond o = .ok (a, s) := by
  cases o with
  | networkError => simp [outcomeFails] at h
  | response ok body =>
    cases ok with
    | false => simp [outcomeFails] at h
    | true =>
      cases body with
      | notJson => simp [outcomeFails] at h
      | json v =>
        cases hv : v.getProp "answer" with
        | error e => simp [outcomeFails, hv] at h
        | ok a =>
          cases hs : v.getProp "source" with
          | error e =>
            cases v <;> simp [JsValue.getProp] at hv hs
          | ok s => exact ⟨a, s, by simp [respond, hv, hs]; rfl⟩

/-- Core computation of `sendMessage` when the guard passes: the user message
with the trimmed text is appended, then the outcome-determined second
message; the request body is the trimmed text. -/
theorem sendMessage_go (st : ChatState) (text : String) (o : FetchOutcome)
    (uid bid : String) (t1 t2 : Int)
    (hg : ((jsTrim text).isEmpty || st.isLoading) = false) :
    (sendMessage st text o uid bid t1 t2).state.messages
      = st.messages ++ [⟨uid, .user, .str (jsTrim text), .undefined, t1⟩, botOf o bid t2]
    ∧ (sendMessage st text o uid bid t1 t2).request = some (jsTrim text) := by
  cases hr : respond o with
  | error e =>
    constructor <;>
      simp [sendMessage, hg, hr, botOf, syncStorage, isEmpty_append_singleton,
        List.append_assoc]
  | ok p =>
    obtain ⟨a, s⟩ := p
    constructor <;>
      simp [sendMessage, hg, hr, botOf, syncStorage, isEmpty_append_singleton,
        List.append_assoc]

/- ============ Claim theorems ============ -/

/-- Claim C2: for every empty or whitespace-only input text, and for every
submit made while a request is in flight (`isLoading = true`), `sendMessage`
is a no-op: the state (messages, input, loading flag, storage) is returned
unchanged and no request is issued. -/
theorem C2_submit_noop (st : ChatState) (text : String) (o : FetchOutcome)
    (uid bid : String) (t1 t2 : Int)
    (h : (jsTrim text).isEmpty = true ∨ st.isLoading = true) :
    sendMessage st text o uid bid t1 t2 = ⟨st, none⟩ := by
  rcases h with h | h <;> simp [sendMessage, h]

/-- Witness for C2 at a whitespace-only input in the idle state. -/
theorem C2_submit_noop_witness :
    sendMessage ⟨[], "", false, .missing⟩ "   " .networkError "u" "b" 1 2
      = ⟨⟨[], "", false, .missing⟩, none⟩ :=
  C2_submit_noop ⟨[], "", false, .missing⟩ "   " .networkError "u" "b" 1 2
    (Or.inl (by decide))

/-- Claim C5: for every storage state that is missing, empty, or unparseable,
`loadMessagesFromStorage` returns the empty sequence (and, exceptions being
modelled by `Except`, its plain list return type shows it raises nothing to
the caller). -/
theorem C5_load_bad_storage :
    loadMessagesFromStorage .missing = []
    ∧ loadMessagesFromStorage .empty = []
    ∧ loadMessagesFromStorage .notJson = [] :=
  ⟨rfl, rfl, rfl⟩

/-- Claim C6: for every session state, `clearHistory` empties the in-memory
message sequence and removes the durable-storage entry, so a subsequent load
returns the empty sequence. -/
theorem C6_clear_empties (st : ChatState) :
    (clearHistory st).messages = []
    ∧ (clearHistory st).storage = Stored.missing
    ∧ loadMessagesFromStorage (clearHistory st).storage = [] :=
  ⟨rfl, rfl, rfl⟩

/-- Claim C10: if the stored value is valid JSON but not an array, `load`
returns the empty sequence: the `.map` call throws inside the `try` and the
`catch` yields `[]`. -/
theorem C10_load_nonarray (v : JsValue) (h : v.isArr = false) :
    loadMessagesFromStorage (.json v) = [] := by
  cases v <;> first | rfl | simp [JsValue.isArr] at h

/-- Witness for C10 at the JSON number 5. -/
theorem C10_load_nonarray_witness :
    loadMessagesFromStorage (.json (.num 5)) = [] :=
  C10_load_nonarray (.num 5) rfl

/-- Claim C7: every operation on the message sequence either appends newly
created messages at the end (the user message, created first, then the
outcome message) or clears the whole sequence; nothing removes or reorders
existing entries. -/
theorem C7_append_only (st : ChatState) (text : String) (o : FetchOutcome)
    (uid bid : String) (t1 t2 : Int) :
    ((sendMessage st text o uid bid t1 t2).state.messages = st.messages
      ∨ (sendMessage st text o uid bid t1 t2).state.messages
          = st.messages ++ [⟨uid, .user, .str (jsTrim text), .undefined, t1⟩, botOf o bid t2])
    ∧ (clearHistory st).messages = [] := by
  constructor
  · cases hg : ((jsTrim text).isEmpty || st.isLoading) with
    | true => exact Or.inl (by simp [sendMessage, hg])
    | false => exact Or.inr (sendMessage_go st text o uid bid t1 t2 hg).1
  · rfl

/-- Claim C8: the render pipeline shows the copy control on a fenced code
block iff the trimmed text exceeds 50 characters; a 40-character block shows
none and a 60-character block shows one. -/
theorem C8_copy_threshold :
    (∀ (cn : Option String) (c : ReactChildren), isCodeBlock cn = true →
      (rendersCopyControl cn c = true ↔ 50 < (childStringOf c).length))
    ∧ rendersCopyControl (some "language-text")
        (.single ((List.replicate 40 'a').asString)) = false
    ∧ rendersCopyControl (some "language-text")
        (.single ((List.replicate 60 'a').asString)) = true := by
  refine ⟨fun cn c h => ?_, by decide, by decide⟩
  simp [rendersCopyControl, h, shouldShowCopyButton]

/-- Witness for C8 at a fenced 60-character block. -/
theorem C8_copy_threshold_witness :
    rendersCopyControl (some "language-ts")
      (.single ((List.replicate 60 'a').asString)) = true :=
  (C8_copy_threshold.1 (some "language-ts")
    (.single ((List.replicate 60 'a').asString)) (by decide)).mpr (by decide)

/-- Counterexample to claim C9: the code renders three suggestion shortcuts,
not four, and they are gated on `!isLoading` as well as emptiness — an empty
session with a request in flight shows none. -/
theorem C9_counterexample :
    suggestions.length = 3 ∧ showSuggestions ⟨[], "", true, .missing⟩ = false :=
  ⟨rfl, rfl⟩

/-- Claim C9 (amended): when and only when the session is empty and no
request is loading, the UI shows three suggestion shortcuts, each of which
immediately invokes `sendMessage` with its canned text — issuing a request
with that text and appending a user message holding it. -/
theorem C9_suggestions :
    suggestions.length = 3
    ∧ (∀ st : ChatState, showSuggestions st = true
        ↔ (st.messages = [] ∧ st.isLoading = false))
    ∧ (∀ (st : ChatState) (s : String) (o : FetchOutcome) (uid bid : String)
          (t1 t2 : Int), s ∈ suggestions → showSuggestions st = true →
        (sendMessage st s o uid bid t1 t2).request = some s
        ∧ (sendMessage st s o uid bid t1 t2).state.messages
            = [⟨uid, .user, .str s, .undefined, t1⟩, botOf o bid t2]) := by
  refine ⟨rfl, fun st => ?_, fun st s o uid bid t1 t2 hs hshow => ?_⟩
  · simp [showSuggestions, List.isEmpty_iff, Bool.not_eq_true']
  · have hempty : st.messages = [] ∧ st.isLoading = false := by
      simpa [showSuggestions, List.isEmpty_iff, Bool.not_eq_true'] using hshow
    have htrim : jsTrim s = s := by
      fin_cases hs <;> decide
    have hne : (jsTrim s).isEmpty = false := by
      fin_cases hs <;> decide
    have hg : ((jsTrim s).isEmpty || st.isLoading) = false := by
      rw [hne, hempty.2]; rfl
    have hgo := sendMessage_go st s o uid bid t1 t2 hg
    rw [htrim] at hgo
    rw [hgo.2, hgo.1, hempty.1]
    exact ⟨rfl, rfl⟩

/-- Witness for C9 at the first canned suggestion from the empty idle state. -/
theorem C9_suggestions_witness :
    (sendMessage ⟨[], "", false, .missing⟩ "How can you help me?" .networkError
      "u" "b" 1 2).request = some "How can you help me?" :=
  (C9_suggestions.2.2 ⟨[], "", false, .missing⟩ "How can you help me?"
    .networkError "u" "b" 1 2 (by decide) rfl).1

/-- Counterexample to claim C1: on a 2xx response whose body is the JSON
object `\x7b\x7d` — valid JSON lacking an `answer` field — the appended
assistant message does not carry the apology string: the unvalidated
`data.answer` read makes its content `undefined`. -/
theorem C1_counterexample :
    (sendMessage ⟨[], "", false, .missing⟩ "hi"
        (.response true (.json (.obj []))) "u" "b" 1 2).state.messages.map
        Message.content
      = [.str "hi", .undefined]
    ∧ JsValue.undefined ≠ JsValue.str apologyText :=
  ⟨rfl, fun h => JsValue.noConfusion h⟩

/-- Claim C1 (amended): for every failed request — non-2xx status, network
error, a body that is not parseable as JSON, or a parsed body on which the
`data.answer` access throws (JSON `null`) — `sendMessage` appends exactly one
assistant message whose content is the fixed apology string and whose source
is absent. A 2xx JSON object body merely lacking `answer` is not treated as
failure: the assistant message then carries `undefined` content instead. -/
theorem C1_failure_apology (st : ChatState) (text : String) (o : FetchOutcome)
    (uid bid : String) (t1 t2 : Int)
    (hne : (jsTrim text).isEmpty = false) (hidle : st.isLoading = false)
    (hfail : outcomeFails o = true) :
    (sendMessage st text o uid bid t1 t2).state.messages
      = st.messages ++ [⟨uid, .user, .str (jsTrim text), .undefined, t1⟩,
                        ⟨bid, .bot, .str apologyText, .undefined, t2⟩] := by
  have hg : ((jsTrim text).isEmpty || st.isLoading) = false := by
    rw [hne, hidle]; rfl
  have hgo := (sendMessage_go st text o uid bid t1 t2 hg).1
  rwa [botOf, outcomeFails_respond hfail] at hgo

/-- Witness for C1 (amended) at a network error from the empty idle state. -/
theorem C1_failure_apology_witness :
    (sendMessage ⟨[], "", false, .missing⟩ "hi" .networkError "u" "b" 1 2).state.messages
      = [⟨"u", .user, .str "hi", .undefined, 1⟩,
         ⟨"b", .bot, .str apologyText, .undefined, 2⟩] :=
  C1_failure_apology ⟨[], "", false, .missing⟩ "hi" .networkError "u" "b" 1 2
    (by decide) rfl rfl

/-- Claim C3: for every submit of non-whitespace text while idle, the user
message with the trimmed text is appended, and on a 2xx response with body
`\x7b answer, source \x7d` exactly one assistant message with that content and
source follows it; the issued request body is the trimmed text. -/
theorem C3_submit_success (st : ChatState) (text answer : String)
    (srcVal : JsValue) (uid bid : String) (t1 t2 : Int)
    (hne : (jsTrim text).isEmpty = false) (hidle : st.isLoading = false) :
    (sendMessage st text
        (.response true (.json (.obj [("answer", .str answer), ("source", srcVal)])))
        uid bid t1 t2).state.messages
      = st.messages ++ [⟨uid, .user, .str (jsTrim text), .undefined, t1⟩,
                        ⟨bid, .bot, .str answer, srcVal, t2⟩]
    ∧ (sendMessage st text
        (.response true (.json (.obj [("answer", .str answer), ("source", srcVal)])))
        uid bid t1 t2).request = some (jsTrim text) := by
  have hg : ((jsTrim text).isEmpty || st.isLoading) = false := by
    rw [hne, hidle]; rfl
  have hgo := sendMessage_go st text
    (.response true (.json (.obj [("answer", .str answer), ("source", srcVal)])))
    uid bid t1 t2 hg
  have hbot : botOf
      (.response true (.json (.obj [("answer", .str answer), ("source", srcVal)])))
      bid t2 = ⟨bid, .bot, .str answer, srcVal, t2⟩ := rfl
  rw [hbot] at hgo
  exact hgo

/- ============ Storage round-trip (claim C4) ============ -/

theorem storable_elim {v : JsValue} (h : storable v = true) :
    v = JsValue.undefined ∨ pureJson v = true := by
  cases v <;> first | exact Or.inl rfl | exact Or.inr h

theorem pure_ne_undefined {v : JsValue} (h : pureJson v = true) :
    v ≠ JsValue.undefined := by
  intro e
  rw [e] at h
  simp [pureJson] at h

theorem isUndef_eq_false {v : JsValue} (h : v ≠ JsValue.undefined) :
    v.isUndef = false := by
  cases v <;> first | exact absurd rfl h | rfl

theorem stringifyFields_cons_of_ne {v : JsValue} (hv : v ≠ JsValue.undefined)
    (k : String) (rest : List (String × JsValue)) :
    stringifyFields ((k, v) :: rest) = (k, stringifyVal v) :: stringifyFields rest := by
  cases v <;> first | rfl | exact absurd rfl hv

mutual

theorem stringifyVal_pure : ∀ (v : JsValue), pureJson v = true → stringifyVal v = v
  | .null, _ => rfl
  | .bool _, _ => rfl
  | .num _, _ => rfl
  | .str _, _ => rfl
  | .datestr _, _ => rfl
  | .undefined, h => by simp [pureJson] at h
  | .date _, h => by simp [pureJson] at h
  | .dateInvalid, h => by simp [pureJson] at h
  | .arr xs, h => by
    rw [stringifyVal, stringifyList_pure xs h]
  | .obj fs, h => by
    rw [stringifyVal, stringifyFields_pure fs h]

theorem stringifyList_pure :
    ∀ (xs : List JsValue), pureJsonList xs = true → stringifyList xs = xs
  | [], _ => rfl
  | x :: rest, h => by
    rw [pureJsonList, Bool.and_eq_true] at h
    rw [stringifyList, stringifyVal_pure x h.1, stringifyList_pure rest h.2]

theorem stringifyFields_pure :
    ∀ (fs : List (String × JsValue)), pureJsonFields fs = true → stringifyFields fs = fs
  | [], _ => rfl
  | (k, v) :: rest, h => by
    rw [pureJsonFields, Bool.and_eq_true] at h
    rw [stringifyFields_cons_of_ne (pure_ne_undefined h.1), stringifyVal_pure v h.1,
      stringifyFields_pure rest h.2]

end

theorem stringifyList_eq_map (xs : List JsValue) :
    stringifyList xs = xs.map stringifyVal := by
  induction xs with
  | nil => rfl
  | cons x rest ih => rw [stringifyList, List.map_cons, ih]

theorem loadedFields_eq (i : String) (r : Role) (c s : JsValue) (t : Int) :
    loadedFields ⟨i, r, c, s, t⟩
      = [("id", JsValue.str i), ("role", JsValue.str (roleStr r))]
        ++ (if c.isUndef then [] else [("content", c)])
        ++ (if s.isUndef then [] else [("source", s)])
        ++ [("timestamp", JsValue.date t)] :=
  rfl

theorem reconstructMsg_toJs (i : String) (r : Role) (c s : JsValue) (t : Int)
    (hc : storable c = true) (hs : storable s = true) :
    reconstructMsg (stringifyVal (Message.toJs ⟨i, r, c, s, t⟩))
      = .ok (.obj (loadedFields ⟨i, r, c, s, t⟩)) := by
  rcases storable_elim hc with hc2 | hc2 <;> rcases storable_elim hs with hs2 | hs2
  · subst hc2; subst hs2; rfl
  · subst hc2
    have hsne := pure_ne_undefined hs2
    have e1 : stringifyVal (Message.toJs ⟨i, r, .undefined, s, t⟩)
        = .obj [("id", JsValue.str i), ("role", JsValue.str (roleStr r)),
                ("source", s), ("timestamp", JsValue.datestr t)] := by
      show JsValue.obj (("id", JsValue.str i) :: ("role", JsValue.str (roleStr r))
          :: stringifyFields (("source", s) :: [("timestamp", JsValue.date t)])) = _
      rw [stringifyFields_cons_of_ne hsne, stringifyVal_pure s hs2]
      rfl
    have e2 : loadedFields ⟨i, r, JsValue.undefined, s, t⟩
        = [("id", JsValue.str i), ("role", JsValue.str (roleStr r)),
           ("source", s), ("timestamp", JsValue.date t)] := by
      rw [loadedFields_eq, isUndef_eq_false hsne]
      rfl
    rw [e1, e2]
    rfl
  · subst hs2
    have hcne := pure_ne_undefined hc2
    have e1 : stringifyVal (Message.toJs ⟨i, r, c, .undefined, t⟩)
        = .obj [("id", JsValue.str i), ("role", JsValue.str (roleStr r)),
                ("content", c), ("timestamp", JsValue.datestr t)] := by
      show JsValue.obj (("id", JsValue.str i) :: ("role", JsValue.str (roleStr r))
          :: stringifyFields (("content", c)
              :: [("source", JsValue.undefined), ("timestamp", JsValue.date t)])) = _
      rw [stringifyFields_cons_of_ne hcne, stringifyVal_pure c hc2]
      rfl
    have e2 : loadedFields ⟨i, r, c, JsValue.undefined, t⟩
        = [("id", JsValue.str i), ("role", JsValue.str (roleStr r)),
           ("content", c), ("timestamp", JsValue.date t)] := by
      rw [loadedFields_eq, isUndef_eq_false hcne]
      rfl
    rw [e1, e2]
    rfl
  · have hcne := pure_ne_undefined hc2
    have hsne := pure_ne_undefined hs2
    have e1 : stringifyVal (Message.toJs ⟨i, r, c, s, t⟩)
        = .obj [("id", JsValue.str i), ("role", JsValue.str (roleStr r)),
                ("content", c), ("source", s), ("timestamp", JsValue.datestr t)] := by
      show JsValue.obj (("id", JsValue.str i) :: ("role", JsValue.str (roleStr r))
          :: stringifyFields (("content", c)
              :: [("source", s), ("timestamp", JsValue.date t)])) = _
      rw [stringifyFields_cons_of_ne hcne, stringifyVal_pure c hc2]
      rw [show stringifyFields [("source", s), ("timestamp", JsValue.date t)]
          = stringifyFields (("source", s) :: [("timestamp", JsValue.date t)]) from rfl]
      rw [stringifyFields_cons_of_ne hsne, stringifyVal_pure s hs2]
      rfl
    have e2 : loadedFields ⟨i, r, c, s, t⟩
        = [("id", JsValue.str i), ("role", JsValue.str (roleStr r)),
           ("content", c), ("source", s), ("timestamp", JsValue.date t)] := by
      rw [loadedFields_eq, isUndef_eq_false hcne, isUndef_eq_false hsne]
      rfl
    rw [e1, e2]
    rfl

theorem matches_loadedFields (i : String) (r : Role) (c s : JsValue) (t : Int)
    (hc : storable c = true) (hs : storable s = true) :
    MatchesMsg (.obj (loadedFields ⟨i, r, c, s, t⟩)) ⟨i, r, c, s, t⟩ := by
  rcases storable_elim hc with hc2 | hc2 <;> rcases storable_elim hs with hs2 | hs2
  · subst hc2; subst hs2
    exact ⟨rfl, rfl, rfl, rfl, rfl⟩
  · subst hc2
    rw [MatchesMsg, loadedFields_eq, isUndef_eq_false (pure_ne_undefined hs2)]
    exact ⟨rfl, rfl, rfl, rfl, rfl⟩
  · subst hs2
    rw [MatchesMsg, loadedFields_eq, isUndef_eq_false (pure_ne_undefined hc2)]
    exact ⟨rfl, rfl, rfl, rfl, rfl⟩
  · rw [MatchesMsg, loadedFields_eq, isUndef_eq_false (pure_ne_undefined hc2),
      isUndef_eq_false (pure_ne_undefined hs2)]
    exact ⟨rfl, rfl, rfl, rfl, rfl⟩

theorem mapExcept_reconstruct_toJs :
    ∀ (msgs : List Message),
      (∀ m ∈ msgs, storable m.content = true ∧ storable m.source = true) →
      mapExcept reconstructMsg (msgs.map (fun m => stringifyVal (Message.toJs m)))
        = Except.ok (msgs.map (fun m => JsValue.obj (loadedFields m)))
  | [], _ => rfl
  | m :: rest, h => by
    have hm := h m (List.mem_cons_self m rest)
    have hrest := mapExcept_reconstruct_toJs rest
      (fun x hx => h x (List.mem_cons_of_mem m hx))
    obtain ⟨i, r, c, s, t⟩ := m
    rw [List.map_cons, mapExcept, reconstructMsg_toJs i r c s t hm.1 hm.2, hrest]
    rfl

/-- Claim C4: serializing any sequence of appendable messages to storage and
loading it back yields a sequence that agrees element by element on id, role,
content and source, with each timestamp reconstructed as a date of the same
millisecond value after passing through its string serialization. -/
theorem C4_storage_roundtrip (msgs : List Message)
    (h : ∀ m ∈ msgs, storable m.content = true ∧ storable m.source = true) :
    List.Forall₂ MatchesMsg (loadMessagesFromStorage (saveMessagesToStorage msgs)) msgs := by
  have e2 : jsMapReconstruct (stringifyVal (.arr (msgs.map Message.toJs)))
      = Except.ok (msgs.map (fun m => JsValue.obj (loadedFields m))) := by
    rw [show stringifyVal (.arr (msgs.map Message.toJs))
        = .arr (stringifyList (msgs.map Message.toJs)) from rfl]
    rw [jsMapReconstruct, stringifyList_eq_map, List.map_map]
    rw [show (stringifyVal ∘ Message.toJs)
        = (fun m => stringifyVal (Message.toJs m)) from rfl]
    exact mapExcept_reconstruct_toJs msgs h
  have e : loadMessagesFromStorage (saveMessagesToStorage msgs)
      = msgs.map (fun m => JsValue.obj (loadedFields m)) := by
    rw [saveMessagesToStorage, loadMessagesFromStorage, e2]
  rw [e, List.forall₂_map_left_iff]
  refine List.forall₂_same.2 (fun m hm => ?_)
  have hm2 := h m hm
  obtain ⟨i, r, c, s, t⟩ := m
  exact matches_loadedFields i r c s t hm2.1 hm2.2

/-- Witness for C4 at a two-message session (a user message and a sourced
bot message). -/
theorem C4_storage_roundtrip_witness :
    List.Forall₂ MatchesMsg
      (loadMessagesFromStorage (saveMessagesToStorage
        [⟨"u1", .user, .str "hello", .undefined, 100⟩,
         ⟨"b1", .bot, .str "hi", .str "WEB", 200⟩]))
      [⟨"u1", .user, .str "hello", .undefined, 100⟩,
       ⟨"b1", .bot, .str "hi", .str "WEB", 200⟩] :=
  C4_storage_roundtrip
    [⟨"u1", .user, .str "hello", .undefined, 100⟩,
     ⟨"b1", .bot, .str "hi", .str "WEB", 200⟩]
    (by decide)

/-- Witness for C3 at the simulated success response with answer "hi" and
source "WEB". -/
theorem C3_submit_success_witness :
    (sendMessage ⟨[], "", false, .missing⟩ "hello"
        (.response true (.json (.obj [("answer", .str "hi"), ("source", .str "WEB")])))
        "u" "b" 1 2).state.messages
      = [⟨"u", .user, .str "hello", .undefined, 1⟩,
         ⟨"b", .bot, .str "hi", .str "WEB", 2⟩] :=
  (C3_submit_success ⟨[], "", false, .missing⟩ "hello" "hi" (.str "WEB")
    "u" "b" 1 2 (by decide) rfl).1

end RagChat
